import Mathlib

/-!
Verification development for the TinyWiFi scanning core (`tinywifi/scan.py`).

The Python source is shallowly embedded: pure parsing helpers become Lean
functions over `List Char`; Python values that may be an int, a string or
`None` become the `PyVal` sum type; Python dicts keyed by strings become
association lists with Python-dict upsert semantics; code paths that can
raise uncaught exceptions are modelled in `Except`.
-/

namespace TinyWifi

/-- A Python scalar value as handled by the converters: an int, a str, or None. -/
inductive PyVal where
  | int : Int → PyVal
  | str : String → PyVal
  | noneV : PyVal
deriving DecidableEq, Repr

/-- Python whitespace test (ASCII subset, which is all the tool outputs use). -/
def isPyWs (c : Char) : Bool :=
  c = ' ' || c = '\t' || c = '\n' || c = '\r' || c = '\x0c' || c = '\x0b'

/-- Python `str.strip()` on a character list. -/
def pyStrip (s : List Char) : List Char :=
  ((s.dropWhile isPyWs).reverse.dropWhile isPyWs).reverse

/-- Python `str.rstrip()` on a character list. -/
def pyRstrip (s : List Char) : List Char :=
  (s.reverse.dropWhile isPyWs).reverse

/-- Decimal digit run to a natural number. -/
def digitsToNat (ds : List Char) : Nat :=
  ds.foldl (fun n c => n * 10 + (c.toNat - '0'.toNat)) 0

/-- Python `int(s)` on a string: strip whitespace, optional sign, digits;
`none` models the `ValueError` raised on any other shape. -/
def parseIntChars (s : List Char) : Option Int :=
  match pyStrip s with
  | '-' :: ds => if ds ≠ [] ∧ ds.all Char.isDigit then some (-(digitsToNat ds : Int)) else none
  | '+' :: ds => if ds ≠ [] ∧ ds.all Char.isDigit then some ((digitsToNat ds : Int)) else none
  | ds => if ds ≠ [] ∧ ds.all Char.isDigit then some ((digitsToNat ds : Int)) else none

/-- Python `int(x)` over a `PyVal`; `none` models the `ValueError`/`TypeError`
that `freq_to_channel` / `channel_to_freq` catch. -/
def pyInt? : PyVal → Option Int
  | .int n => some n
  | .str s => parseIntChars s.data
  | .noneV => none

/-- Python `f"{x}"` rendering of a `PyVal`. -/
def pyStr : PyVal → String
  | .int n => toString n
  | .str s => s
  | .noneV => "None"

/-- `freq_to_channel` from `scan.py`: frequency (MHz) to channel number string,
with the `"Unknown"` sentinel on failure.  Python `//` is floor division and
both divisors are positive, so `Int.ediv` coincides with it. -/
def freq_to_channel (freq : PyVal) : PyVal :=
  match pyInt? freq with
  | none => .str "Unknown"
  | some f =>
    if 2412 ≤ f ∧ f ≤ 2472 then .str (toString ((f - 2407) / 5))
    else if 5180 ≤ f ∧ f ≤ 5825 then .str (toString ((f - 5000) / 5))
    else .str "Unknown"

/-- `channel_to_freq` from `scan.py`: channel number to frequency (MHz),
with the `"Unknown"` sentinel on failure. -/
def channel_to_freq (channel : PyVal) : PyVal :=
  match pyInt? channel with
  | none => .str "Unknown"
  | some ch =>
    if 1 ≤ ch ∧ ch ≤ 14 then
      if ch = 14 then .int 2484 else .int (2412 + (ch - 1) * 5)
    else if 36 ≤ ch ∧ ch ≤ 64 then .int (5000 + ch * 5)
    else if 100 ≤ ch ∧ ch ≤ 144 then .int (5000 + ch * 5)
    else if 149 ≤ ch ∧ ch ≤ 165 then .int (5000 + ch * 5)
    else .str "Unknown"

/-- The valid channel ranges recognized by `channel_to_freq`. -/
def validChannel (ch : Int) : Prop :=
  (1 ≤ ch ∧ ch ≤ 14) ∨ (36 ≤ ch ∧ ch ≤ 64) ∨ (100 ≤ ch ∧ ch ≤ 144) ∨ (149 ≤ ch ∧ ch ≤ 165)

instance (ch : Int) : Decidable (validChannel ch) := by unfold validChannel; infer_instance

/-- The frequency ranges recognized by `freq_to_channel`. -/
def validFreq (f : Int) : Prop :=
  (2412 ≤ f ∧ f ≤ 2472) ∨ (5180 ≤ f ∧ f ≤ 5825)

instance (f : Int) : Decidable (validFreq f) := by unfold validFreq; infer_instance

/-- `channelToFrequency` as the spec (§4.1) words it, for numeric input. -/
def channelToFrequencySpec (ch : Int) : PyVal :=
  if 1 ≤ ch ∧ ch ≤ 13 then .int (2412 + (ch - 1) * 5)
  else if ch = 14 then .int 2484
  else if (36 ≤ ch ∧ ch ≤ 64) ∨ (100 ≤ ch ∧ ch ≤ 144) ∨ (149 ≤ ch ∧ ch ≤ 165) then
    .int (5000 + ch * 5)
  else .str "Unknown"

/-- `frequencyToChannel` as the spec (§4.1) words it, for numeric input. -/
def frequencyToChannelSpec (f : Int) : PyVal :=
  if 2412 ≤ f ∧ f ≤ 2472 then .str (toString ((f - 2407) / 5))
  else if 5180 ≤ f ∧ f ≤ 5825 then .str (toString ((f - 5000) / 5))
  else .str "Unknown"

/-! ### Record finalizer (`_finalize_network`) -/

/-- Python `min(100, max(0, x))`. -/
def pyClamp (x : Int) : Int := min 100 (max 0 x)

/-- Python `int(a * 0.5)` for an integer `a`: exact halving then truncation
toward zero (the float product is exact for these magnitudes). -/
def truncHalf (a : Int) : Int := if 0 ≤ a then a / 2 else -((-a) / 2)

/-- Python `round(a * 0.5)` for an integer `a` (banker's rounding, half to
even).  This is the formula the spec states for `signal_percent`; the code
uses `int(...)` truncation instead. -/
def pyRoundHalf (a : Int) : Int :=
  if a % 2 = 0 then a / 2
  else if (a / 2) % 2 = 0 then a / 2 else a / 2 + 1

/-- A partial network record as built up by the parsers: a Python dict in
which every field may be missing. -/
structure PartialNet where
  ssid : Option String := none
  bssid : Option String := none
  rssi : Option Int := none
  noise : Option Int := none
  channel : Option String := none
  freq : Option PyVal := none
  band : Option String := none
  mode : Option String := none
  rate : Option String := none
  security : Option String := none
deriving DecidableEq, Repr

/-- A finalized network record: `_finalize_network` always populates every
one of these keys (in particular `signal` is always present). -/
structure Network where
  ssid : String
  bssid : String
  rssi : Int
  signal : Int
  noise : Option Int
  snr : Option Int
  channel : String
  freq : PyVal
  band : String
  mode : String
  rate : String
  security : String
deriving DecidableEq, Repr

/-- `_finalize_network` from `scan.py`. -/
def _finalize_network (p : PartialNet) : Network :=
  let rssi := p.rssi.getD (-100)
  let noise := p.noise.getD (-100)
  let snr : Option Int := if rssi ≠ -100 ∧ noise ≠ -100 then some (rssi - noise) else none
  let signal : Int :=
    if rssi ≠ -100 ∧ noise ≠ -100 then pyClamp (truncHalf (rssi - noise + 100))
    else pyClamp (2 * (rssi + 100))
  { ssid := p.ssid.getD "Unknown"
    bssid := p.bssid.getD ""
    rssi := rssi
    signal := signal
    noise := p.noise
    snr := snr
    channel := p.channel.getD "--"
    freq := p.freq.getD (.str "--")
    band := p.band.getD "Unknown"
    mode := p.mode.getD "--"
    rate := p.rate.getD "--"
    security := p.security.getD "--" }

/-! ### Text utilities shared by the parsers -/

/-- `startsWithL pat s` is Python `s.startswith(pat)` on char lists. -/
def startsWithL : List Char → List Char → Bool
  | [], _ => true
  | _ :: _, [] => false
  | p :: ps, c :: cs => p == c && startsWithL ps cs

/-- Python `pat in s` (substring containment). -/
def containsSub (pat : List Char) : List Char → Bool
  | [] => startsWithL pat []
  | c :: cs => startsWithL pat (c :: cs) || containsSub pat cs

/-- Python `s.endswith(":")`. -/
def endsWithColon (s : List Char) : Bool := s.getLast? == some ':'

/-- Does the character occur in the list (Python `c in s`)? -/
def containsChar (c : Char) (s : List Char) : Bool := s.any (· == c)

/-- Python `s.split(sep, 1)` at the first colon; only used when a colon
is present. -/
def splitFirstColon : List Char → List Char × List Char
  | [] => ([], [])
  | ':' :: cs => ([], cs)
  | c :: cs => let r := splitFirstColon cs; (c :: r.1, r.2)

/-- Python `s.split(d)` on every occurrence of a single character. -/
def splitOnAllAux (d : Char) : List Char → List Char → List (List Char)
  | [], acc => [acc.reverse]
  | c :: cs, acc =>
    if c = d then acc.reverse :: splitOnAllAux d cs [] else splitOnAllAux d cs (c :: acc)

def splitOnAll (d : Char) (s : List Char) : List (List Char) := splitOnAllAux d s []

/-- Python `s.replace(" dBm", "")`. -/
def removeDBm : List Char → List Char
  | ' ' :: 'd' :: 'B' :: 'm' :: cs => removeDBm cs
  | c :: cs => c :: removeDBm cs
  | [] => []

/-- Python `s.replace(" MHz", "")`. -/
def removeMHz : List Char → List Char
  | ' ' :: 'M' :: 'H' :: 'z' :: cs => removeMHz cs
  | c :: cs => c :: removeMHz cs
  | [] => []

/-- Python `str.splitlines()`, splitting pass (for the line separators
`\n`, `\r\n`, `\r` that the scanned tool outputs can contain): a split
happens at every `\n` and `\r`, except that the `\n` of a `\r\n` pair
(`afterCR` is true exactly on the character following a `\r`) produces no
extra line.  A trailing terminator still yields a final empty piece here;
`splitLinesPy` removes it. -/
def splitLinesCR : List Char → List Char → Bool → List (List Char)
  | [], acc, _ => [acc.reverse]
  | c :: cs, acc, afterCR =>
    if c = '\n' then
      if afterCR then splitLinesCR cs [] false
      else acc.reverse :: splitLinesCR cs [] false
    else if c = '\r' then acc.reverse :: splitLinesCR cs [] true
    else splitLinesCR cs (c :: acc) false

/-- Python `str.splitlines()`: `[]` for the empty string, and no trailing
empty line for a trailing terminator. -/
def splitLinesPy (s : List Char) : List (List Char) :=
  match s with
  | [] => []
  | _ :: _ =>
    let r := splitLinesCR s [] false
    if r.getLast? = some [] then r.dropLast else r

/-! ### macOS nested-section parser (`_parse_macos_networks`) -/

/-- The section marker for the networks list. -/
def marker : List Char := "Other Local Wi-Fi Networks:".data

def spaces12 : List Char := List.replicate 12 ' '

def spaces14 : List Char := List.replicate 14 ' '

/-- Leftmost match of the regex `(\d+)\s*\((\d+)GHz` (as used on the
`Channel` value): returns the two digit groups.  The greedy scan is exact
here because a failed longer digit run can never be rescued by a shorter
one (a digit is neither whitespace nor `(` nor `G`). -/
def matchChannelAt (s : List Char) : Option (List Char × List Char) :=
  let d1 := s.takeWhile Char.isDigit
  if d1.isEmpty then none
  else
    match (s.dropWhile Char.isDigit).dropWhile isPyWs with
    | '(' :: r3 =>
      let d2 := r3.takeWhile Char.isDigit
      if d2.isEmpty then none
      else if startsWithL "GHz".data (r3.dropWhile Char.isDigit) then some (d1, d2) else none
    | _ => none

def searchChannel : List Char → Option (List Char × List Char)
  | [] => none
  | c :: cs =>
    match matchChannelAt (c :: cs) with
    | some r => some r
    | none => searchChannel cs

/-- One `Key: Value` property line applied to the record being built
(the body of the `elif` chain in `_parse_macos_networks`). -/
def macProp (cur : PartialNet) (line : List Char) : PartialNet :=
  let kv := splitFirstColon line
  let key := String.mk (pyStrip kv.1)
  let value := pyStrip kv.2
  if key = "Channel" then
    match searchChannel value with
    | some (d1, d2) =>
      let chStr := String.mk d1
      let ghz : Int := (digitsToNat d2 : Int)
      { cur with
        channel := some chStr
        freq := some (channel_to_freq (.str chStr))
        band := some (if ghz = 2 ∨ ghz = 5 then toString ghz ++ "GHz" else "Unknown") }
    | none => cur
  else if key = "Signal / Noise" then
    let parts := splitOnAll '/' value
    let cur :=
      { cur with rssi := some ((parseIntChars (removeDBm (pyStrip (parts.getD 0 [])))).getD (-100)) }
    if parts.length ≥ 2 then
      { cur with noise := some ((parseIntChars (removeDBm (pyStrip (parts.getD 1 [])))).getD (-100)) }
    else cur
  else if key = "Security" then { cur with security := some (String.mk value) }
  else if key = "Network Type" then
    { cur with mode := some (if startsWithL "Infrastructure".data value then "Infra" else String.mk value) }
  else if key = "Transmit Rate" then { cur with rate := some (String.mk value) }
  else cur

/-- Push the record being built if it has a truthy ssid
(`if current_network and current_network.get('ssid')`). -/
def pushNet (cur : PartialNet) : List Network :=
  match cur.ssid with
  | some s => if s ≠ "" then [_finalize_network cur] else []
  | none => []

/-- The line loop of `_parse_macos_networks`, state threaded explicitly:
in-section flag, the record being built, and the networks emitted so far. -/
def macGo : List (List Char) → Bool → PartialNet → List Network → List Network
  | [], _, cur, acc => acc ++ pushNet cur
  | l :: rest, inSec, cur, acc =>
    let line := pyRstrip l
    if containsSub marker line then macGo rest true cur acc
    else if ¬ inSec then macGo rest inSec cur acc
    else if line ≠ [] ∧ ¬ startsWithL [' '] line ∧ containsChar ':' line
        ∧ ¬ startsWithL spaces12 line then
      acc ++ pushNet cur
    else if pyStrip line = [] then macGo rest inSec {} (acc ++ pushNet cur)
    else if startsWithL spaces12 line ∧ ¬ startsWithL spaces14 line ∧ endsWithColon line then
      macGo rest inSec { ssid := some (String.mk (pyStrip line).dropLast) } (acc ++ pushNet cur)
    else if startsWithL spaces14 line ∧ containsChar ':' line then
      macGo rest inSec (macProp cur line) acc
    else macGo rest inSec cur acc

/-- `_parse_macos_networks` from `scan.py`. -/
def _parse_macos_networks (output : String) : List Network :=
  macGo (splitLinesPy output.data) false {} []

/-! ### macOS connected-network parser and rate extractor -/

def currentMarker : List Char := "Current Network Information:".data

/-- The property-key words that disqualify a line from being the SSID. -/
def keywordsCN : List String :=
  ["PHY Mode", "Channel", "Country", "Network", "Security", "Signal", "Transmit", "MCS"]

/-- Leftmost match of the regex `(\d+)`. -/
def findFirstDigitRun : List Char → Option (List Char)
  | [] => none
  | c :: cs => if c.isDigit then some ((c :: cs).takeWhile Char.isDigit) else findFirstDigitRun cs

/-- Python truthiness of the optional ssid string. -/
def ssidTruthy : Option String → Bool
  | some s => s ≠ ""
  | none => false

/-- The line loop of `_parse_macos_connected_network`. -/
def connGo : List (List Char) → Bool → Option String → Option String → Option String
  | [], _, _, _ => none
  | l :: rest, inCur, ssid, channel =>
    let line := pyStrip l
    if containsSub currentMarker line then connGo rest true ssid channel
    else if ¬ inCur then connGo rest inCur ssid channel
    else if containsSub marker line ∨ (line = [] ∧ ssidTruthy ssid ∧ channel.isSome) then none
    else
      let st :=
        if endsWithColon line ∧ ¬ (keywordsCN.any (fun x => containsSub x.data line)) then
          (some (String.mk line.dropLast), channel)
        else if startsWithL "Channel:".data line then
          match findFirstDigitRun (pyStrip (splitFirstColon line).2) with
          | some ds => (ssid, some (String.mk ds))
          | none => (ssid, channel)
        else (ssid, channel)
      if ssidTruthy st.1 ∧ st.2.isSome then
        some (st.1.getD "" ++ "_" ++ pyStr (channel_to_freq (.str (st.2.getD ""))))
      else connGo rest inCur st.1 st.2

/-- `_parse_macos_connected_network` from `scan.py`. -/
def _parse_macos_connected_network (output : String) : Option String :=
  connGo (splitLinesPy output.data) false none none

/-- The line loop of `_extract_connected_rate`. -/
def rateGo : List (List Char) → Bool → Option String
  | [], _ => none
  | l :: rest, inCur =>
    let line := pyStrip l
    if containsSub currentMarker line then rateGo rest true
    else if ¬ inCur then rateGo rest inCur
    else if containsSub marker line then none
    else if startsWithL "Transmit Rate:".data line then
      some (String.mk (pyStrip (splitFirstColon line).2))
    else rateGo rest inCur

/-- `_extract_connected_rate` from `scan.py`. -/
def _extract_connected_rate (output : String) : Option String :=
  rateGo (splitLinesPy output.data) false

/-! ### Python dict with string keys, as an insertion-ordered association list -/

/-- `k in m` for a Python dict. -/
def hasKey {α : Type} (m : List (String × α)) (k : String) : Bool :=
  m.any (fun p => p.1 == k)

/-- `m[k] = v` for a Python dict: overwrite in place if the key is present
(insertion order is preserved), else append. -/
def upsert {α : Type} (m : List (String × α)) (k : String) (v : α) : List (String × α) :=
  if hasKey m k then m.map (fun p => if p.1 = k then (k, v) else p) else m ++ [(k, v)]

/-- `m.get(k)` for a Python dict. -/
def dlookup {α : Type} (k : String) : List (String × α) → Option α
  | [] => none
  | p :: ps => if p.1 = k then some p.2 else dlookup k ps

/-- `list(m.keys())` for a Python dict. -/
def dkeys {α : Type} (m : List (String × α)) : List String := m.map Prod.fst

/-! ### Linux nmcli / iwlist records and the merge loop -/

/-- One row of `nmcli -t -f ACTIVE,SSID,BSSID,SIGNAL,CHAN,FREQ,MODE,RATE,SECURITY`
after parsing in `_get_linux_nmcli_networks`. -/
structure NmNet where
  ssid : String
  bssid : String
  rssi : Int := -100
  signal : Int
  channel : String
  freq : String
  band : String
  mode : String
  rate : String
  security : String
  active : Bool
deriving DecidableEq, Repr

/-- A record from the secondary `iwlist`/`iw` source
(`_get_linux_iwlist_networks`); every field but the ssid may be missing.
Its subprocess-driven construction is the external collaborator here, so
the aggregator takes these records as pass input. -/
structure IwNet where
  ssid : String
  freq : Option String := none
  rssi : Option Int := none
  noise : Option Int := none
  snr : Option Int := none
deriving DecidableEq, Repr

/-- The combined per-network dict built in the Linux branch of
`get_wifi_networks` (an `NmNet` copy possibly enriched with
`noise`/`snr` keys from the iwlist match). -/
structure LinNet where
  ssid : String
  bssid : String
  rssi : Int
  signal : Int
  channel : String
  freq : String
  band : String
  mode : String
  rate : String
  security : String
  active : Bool
  noise : Option Int := none
  snr : Option Int := none
deriving DecidableEq, Repr

/-- `nmcli_net.copy()` into the combined shape. -/
def linBase (nm : NmNet) : LinNet :=
  { ssid := nm.ssid, bssid := nm.bssid, rssi := nm.rssi, signal := nm.signal
    channel := nm.channel, freq := nm.freq, band := nm.band, mode := nm.mode
    rate := nm.rate, security := nm.security, active := nm.active
    noise := none, snr := none }

/-- A value stored in the accumulation dict returned by `get_wifi_networks`:
a macOS record, a Linux record, or — under the reserved key `'current'` —
the connected identity string or `None`. -/
inductive Entry where
  | net : Network → Entry
  | lin : LinNet → Entry
  | cur : Option String → Entry
deriving DecidableEq, Repr

/-- The identity key `f"{net['ssid']}_{net['freq']}"` of a finalized
macOS record. -/
def uniqueId (n : Network) : String := n.ssid ++ "_" ++ pyStr n.freq

/-- The macOS accumulation loop body: upsert every parsed record under its
identity key (lines 54-56 of `scan.py`). -/
def addNetworks (m : List (String × Entry)) (nets : List Network) : List (String × Entry) :=
  nets.foldl (fun acc n => upsert acc (uniqueId n) (Entry.net n)) m

/-- The value of the last record in the list carrying the given identity. -/
def lastVal (k : String) : List Network → Option Network
  | [] => none
  | n :: ns =>
    match lastVal k ns with
    | some v => some v
    | none => if uniqueId n = k then some n else none

/-- Uncaught Python exceptions of `get_wifi_networks`:
`NotImplementedError`, `ValueError` for an unknown selector, and the
`KeyError`/`ValueError` that the Linux merge loop can raise. -/
inductive ScanErr where
  | notImplemented (msg : String)
  | valueError (msg : String)
  | runtimeError
deriving DecidableEq, Repr

/-- The iwlist-match search of the Linux merge loop: first record with the
same ssid and a frequency within 10 MHz; `int()` of a malformed frequency or
indexing a missing one raises. -/
def findIwMatch (nm : NmNet) : List IwNet → Except ScanErr (Option IwNet)
  | [] => .ok none
  | w :: ws =>
    if w.ssid = nm.ssid then
      match w.freq with
      | none => .error .runtimeError
      | some fs =>
        match parseIntChars fs.data with
        | none => .error .runtimeError
        | some a =>
          match parseIntChars nm.freq.data with
          | none => .error .runtimeError
          | some b =>
            if (a - b).natAbs < 10 then .ok (some w) else findIwMatch nm ws
    else findIwMatch nm ws

/-- Combining one nmcli record with its optional iwlist match
(lines 100-108 of `scan.py`). -/
def combineNets (nm : NmNet) (m : Option IwNet) : Except ScanErr LinNet :=
  match m with
  | none => .ok (linBase nm)
  | some w =>
    let base := linBase nm
    let b1 : Except ScanErr LinNet :=
      if w.rssi ≠ some (-100) then
        match w.rssi with
        | some r => .ok { base with rssi := r }
        | none => .error .runtimeError
      else .ok base
    match b1 with
    | .error e => .error e
    | .ok b1 =>
      let b2 := if w.noise.isSome then { b1 with noise := w.noise } else b1
      .ok (if w.snr.isSome then { b2 with snr := w.snr } else b2)

/-- The Linux per-pass merge loop over the nmcli records. -/
def linuxMerge (iw : List IwNet) :
    List NmNet → List (String × Entry) → Option String →
    Except ScanErr (List (String × Entry) × Option String)
  | [], all, conn => .ok (all, conn)
  | nm :: rest, all, conn =>
    let uid := nm.ssid ++ "_" ++ nm.freq
    match findIwMatch nm iw with
    | .error e => .error e
    | .ok m =>
      match combineNets nm m with
      | .error e => .error e
      | .ok c =>
        linuxMerge iw rest (upsert all uid (.lin c))
          (if nm.active then some uid else conn)

/-- The Linux scan loop over passes; `passes i` supplies the outputs of the
two getter calls for pass `i` (each getter swallows its own subprocess
failures and yields `[]`). -/
def linuxLoop (passes : Nat → List IwNet × List NmNet) :
    Nat → Nat → List (String × Entry) → Option String →
    Except ScanErr (List (String × Entry) × Option String)
  | _, 0, all, conn => .ok (all, conn)
  | i, rem + 1, all, conn =>
    match linuxMerge (passes i).1 (passes i).2 all conn with
    | .error e => .error e
    | .ok (all, conn) => linuxLoop passes (i + 1) rem all conn

/-- The Linux branch of `get_wifi_networks` (lines 76-123). -/
def linuxRunScan (scans : Nat) (passes : Nat → List IwNet × List NmNet) :
    Except ScanErr (List (String × Entry)) :=
  match linuxLoop passes 0 scans [] none with
  | .error e => .error e
  | .ok (all, conn) => .ok (upsert all "current" (.cur conn))

/-- `all_networks[cid]['rate'] = rate` on the accumulation dict. -/
def rateUpd (m : List (String × Entry)) (cid : String) (r : String) : List (String × Entry) :=
  m.map fun p =>
    if p.1 = cid then
      (p.1, match p.2 with | .net n => Entry.net { n with rate := r } | e => e)
    else p

/-- The first-pass-only connected-network detection and rate enrichment of
the macOS branch (lines 59-66). -/
def macosFirstPassExtras (all : List (String × Entry)) (out : String) :
    List (String × Entry) × Option String :=
  match _parse_macos_connected_network out with
  | some cid =>
    if cid ≠ "" ∧ hasKey all cid then
      match _extract_connected_rate out with
      | some ri =>
        if ri ≠ "" then (rateUpd all cid (ri ++ " Mbps"), some cid) else (all, some cid)
      | none => (all, some cid)
    else (all, some cid)
  | none => (all, none)

/-- The macOS scan loop over passes; `passes i = none` models a
`subprocess` failure on pass `i`, which is caught and skipped. -/
def macosLoop (passes : Nat → Option String) :
    Nat → Nat → List (String × Entry) → Option String →
    List (String × Entry) × Option String
  | _, 0, all, conn => (all, conn)
  | i, rem + 1, all, conn =>
    match passes i with
    | none => macosLoop passes (i + 1) rem all conn
    | some out =>
      let all := addNetworks all (_parse_macos_networks out)
      let st := if i = 0 then macosFirstPassExtras all out else (all, conn)
      macosLoop passes (i + 1) rem st.1 st.2

/-- The macOS branch of `get_wifi_networks` (lines 39-75). -/
def macosRunScan (scans : Nat) (passes : Nat → Option String) : List (String × Entry) :=
  let st := macosLoop passes 0 scans [] none
  upsert st.1 "current" (.cur st.2)

/-- `get_wifi_networks` from `scan.py`.  The subprocess collaborators are
supplied as the per-pass oracles `macPasses`/`linPasses`; raising is
modelled by `Except`. -/
def get_wifi_networks (timeout : Int) (target_os : String)
    (macPasses : Nat → Option String) (linPasses : Nat → List IwNet × List NmNet) :
    Except ScanErr (List (String × Entry)) :=
  let scans := (max 1 (timeout / 2)).toNat
  if target_os = "macos" then .ok (macosRunScan scans macPasses)
  else if target_os = "linux" then linuxRunScan scans linPasses
  else if target_os = "windows" then
    .error (.notImplemented "Windows WiFi scanning not implemented yet.")
  else .error (.valueError ("Unknown OS: " ++ target_os))

/-! ### nmcli line parsing (`_get_linux_nmcli_networks`) -/

/-- Split on un-escaped colons, the model of
`re.split(r'(?<!\\):', line)`: a colon splits unless the character
immediately before it is a backslash. -/
def splitUnescAux : List Char → List Char → List (List Char)
  | [], acc => [acc.reverse]
  | c :: cs, acc =>
    if c = ':' ∧ acc.head? ≠ some '\\' then acc.reverse :: splitUnescAux cs []
    else splitUnescAux cs (c :: acc)

def splitUnescapedColons (s : List Char) : List (List Char) := splitUnescAux s []

/-- Python `f.replace('\\:', ':')` (leftmost, non-overlapping). -/
def replaceEscColon : List Char → List Char
  | '\\' :: ':' :: cs => ':' :: replaceEscColon cs
  | c :: cs => c :: replaceEscColon cs
  | [] => []

/-- `f.replace('\\:', ':').replace('\\', '')`. -/
def unescapeField (s : List Char) : List Char :=
  (replaceEscColon s).filter (fun c => c ≠ '\\')

/-- Python `s.isdigit()` (ASCII digits, which is all nmcli emits). -/
def pyIsDigit (s : List Char) : Bool := !s.isEmpty && s.all Char.isDigit

/-- The per-line body of `_get_linux_nmcli_networks`: lines with fewer than
nine fields are skipped. -/
def nmcliLineRecord (line : List Char) : Option NmNet :=
  let fields := (splitUnescapedColons (pyStrip line)).map unescapeField
  if fields.length ≥ 9 then
    let f := fun i => fields.getD i []
    let ssid0 := String.mk (pyStrip (f 1))
    let freq := String.mk (pyStrip (removeMHz (f 5)))
    some
      { ssid := if ssid0 = "" then "<hidden>" else ssid0
        bssid := String.mk (pyStrip (f 2))
        rssi := -100
        signal := if pyIsDigit (f 3) then (digitsToNat (f 3) : Int) else 0
        channel := String.mk (pyStrip (f 4))
        freq := freq
        band := if freq ≠ "" ∧ startsWithL ['2'] freq.data then "2.4GHz" else "5GHz"
        mode := String.mk (pyStrip (f 6))
        rate := String.mk (pyStrip (f 7))
        security := String.mk (pyStrip (f 8))
        active := String.mk (pyStrip (f 0)) = "yes" }
  else none

/-- `_get_linux_nmcli_networks` from `scan.py` applied to the captured
stdout; `none` models the swallowed subprocess failure. -/
def _get_linux_nmcli_networks (stdout : Option String) : List NmNet :=
  match stdout with
  | none => []
  | some s => (splitLinesPy s.data).filterMap nmcliLineRecord

/-! ### The presentation layer's key list (`print_table`, lines 307-311) -/

/-- The sort key `networks_dict[k].get('rssi', -100)` (the `'current'` key
never reaches this lookup because it is filtered out first). -/
def rssiKey (d : List (String × Entry)) (k : String) : Int :=
  match dlookup k d with
  | some (.net n) => n.rssi
  | some (.lin n) => n.rssi
  | _ => -100

/-- Stable descending insertion, modelling the `sorted(..., reverse=True)`
builtin call. -/
def insertByRssi (d : List (String × Entry)) (k : String) : List String → List String
  | [] => [k]
  | k' :: ks => if rssiKey d k' < rssiKey d k then k :: k' :: ks else k' :: insertByRssi d k ks

/-- `ssid_list` of `print_table`: every key except `'current'`, sorted by
descending rssi. -/
def tableSsidList (d : List (String × Entry)) : List String :=
  ((dkeys d).filter (fun k => k ≠ "current")).foldr (insertByRssi d) []

/-! ### Concrete sample inputs from the spec's test scenarios -/

/-- The two-block nested-section scenario of §8 (names indented 12 spaces,
properties 14). -/
def macScenario : String :=
  "          Other Local Wi-Fi Networks:\n            MyHomeWiFi:\n              Channel: 6 (2GHz, 20MHz)\n              Security: WPA2 Personal\n              Signal / Noise: -48 dBm / -94 dBm\n            Office5G:\n              Channel: 149 (5GHz, 80MHz)\n              Signal / Noise: -60 dBm / -92 dBm\n"

/-- The colon-delimited sample row of §8 with an escaped BSSID. -/
def nmLineSample : String := "yes:HomeNet:AA\\:BB\\:CC\\:DD\\:EE\\:FF:80:6:2437:Infra:130 Mbit/s:WPA2"

/-- A row with an empty SSID field and active-flag `no`. -/
def nmHiddenSample : String := "no::AA\\:BB\\:CC\\:DD\\:EE\\:FF:70:11:2462:Infra:270 Mbit/s:WPA2"

end TinyWifi

/-! ## Theorems -/

namespace TinyWifi

/-! ### Association-list (Python dict) lemmas -/

theorem hasKey_false_dlookup {α : Type} (m : List (String × α)) (k : String)
    (h : hasKey m k = false) : dlookup k m = none := by
  induction m with
  | nil => rfl
  | cons p ps ih =>
    simp only [hasKey, List.any_cons, Bool.or_eq_false_iff, beq_eq_false_iff_ne] at h
    simp only [dlookup, if_neg h.1]
    exact ih (by simp only [hasKey]; simpa using h.2)

theorem dlookup_append {α : Type} (m l : List (String × α)) (k : String) :
    dlookup k (m ++ l) =
      (match dlookup k m with | some w => some w | none => dlookup k l) := by
  induction m with
  | nil => rfl
  | cons p ps ih =>
    by_cases h : p.1 = k <;>
      simp only [List.cons_append, List.append_eq, dlookup, if_pos, if_neg, h,
        ite_true, ite_false, ih]

theorem dlookup_map_hit {α : Type} (m : List (String × α)) (k : String) (v : α) :
    dlookup k (m.map (fun p => if p.1 = k then (k, v) else p)) =
      (if hasKey m k then some v else none) := by
  induction m with
  | nil => rfl
  | cons p ps ih =>
    by_cases h : p.1 = k
    · have hb : (p.1 == k) = true := beq_iff_eq.mpr h
      simp [dlookup, hasKey, h, hb, ih]
    · have hb : (p.1 == k) = false := beq_eq_false_iff_ne.mpr h
      have e : (p.1 == k || ps.any fun q => q.1 == k) = (ps.any fun q => q.1 == k) := by
        rw [hb, Bool.false_or]
      simp only [List.map_cons, if_neg h, dlookup, ih, hasKey, List.any_cons, e]

theorem dlookup_map_miss {α : Type} (m : List (String × α)) (k k' : String) (v : α)
    (hne : k' ≠ k) :
    dlookup k' (m.map (fun p => if p.1 = k then (k, v) else p)) = dlookup k' m := by
  have hne' : ¬ k = k' := fun e => hne e.symm
  induction m with
  | nil => rfl
  | cons p ps ih =>
    by_cases h : p.1 = k
    · simp [dlookup, h, hne', ih]
    · simp only [List.map_cons, if_neg h, dlookup, ih]

theorem dlookup_upsert {α : Type} (m : List (String × α)) (k k' : String) (v : α) :
    dlookup k' (upsert m k v) = if k' = k then some v else dlookup k' m := by
  unfold upsert
  by_cases hk : hasKey m k
  · rw [if_pos hk]
    by_cases he : k' = k
    · subst he; rw [dlookup_map_hit, if_pos hk, if_pos rfl]
    · rw [dlookup_map_miss _ _ _ _ he, if_neg he]
  · rw [if_neg hk, dlookup_append]
    by_cases he : k' = k
    · subst he
      rw [hasKey_false_dlookup m k' (by simpa using hk)]
      simp [dlookup]
    · rw [if_neg he]
      cases h : dlookup k' m with
      | none => simp [dlookup, if_neg (fun e : k = k' => he e.symm)]
      | some w => rfl

theorem dkeys_map_overwrite {α : Type} (m : List (String × α)) (k : String) (v : α) :
    dkeys (m.map (fun p => if p.1 = k then (k, v) else p)) = dkeys m := by
  induction m with
  | nil => rfl
  | cons p ps ih =>
    by_cases h : p.1 = k <;>
      simp [dkeys, h, ih] <;>
      exact fun a b _ => by by_cases ha : a = k <;> simp [ha]

theorem hasKey_iff_mem {α : Type} (m : List (String × α)) (k : String) :
    hasKey m k = true ↔ k ∈ dkeys m := by
  simp only [hasKey, dkeys, List.any_eq_true, List.mem_map, beq_iff_eq]

theorem nodup_dkeys_upsert {α : Type} (m : List (String × α)) (k : String) (v : α)
    (h : (dkeys m).Nodup) : (dkeys (upsert m k v)).Nodup := by
  unfold upsert
  by_cases hk : hasKey m k
  · rw [if_pos hk, dkeys_map_overwrite]
    exact h
  · rw [if_neg hk]
    have hnm : k ∉ dkeys m := fun hm => hk ((hasKey_iff_mem m k).mpr hm)
    have e : dkeys (m ++ [(k, v)]) = dkeys m ++ [k] := by simp [dkeys]
    rw [e]
    simp only [List.nodup_append, List.nodup_cons, List.not_mem_nil, not_false_iff,
      List.nodup_nil, and_true, true_and]
    refine ⟨h, ?_⟩
    intro a ha hb
    simp only [List.mem_singleton] at hb
    subst hb
    exact hnm ha

theorem addNetworks_dlookup (nets : List Network) :
    ∀ (m : List (String × Entry)) (k : String),
      dlookup k (addNetworks m nets) =
        (match lastVal k nets with
         | some r => some (Entry.net r)
         | none => dlookup k m) := by
  induction nets with
  | nil => intro m k; rfl
  | cons n ns ih =>
    intro m k
    have step : addNetworks m (n :: ns) = addNetworks (upsert m (uniqueId n) (.net n)) ns := rfl
    rw [step, ih]
    cases h : lastVal k ns with
    | some v => simp [lastVal, h]
    | none =>
      rw [dlookup_upsert]
      simp only [lastVal, h]
      by_cases he : uniqueId n = k
      · rw [if_pos he.symm, if_pos he]
      · rw [if_neg (fun e => he e.symm), if_neg he]

theorem lastVal_append (k : String) (xs ys : List Network) :
    lastVal k (xs ++ ys) =
      (match lastVal k ys with | some v => some v | none => lastVal k xs) := by
  induction xs with
  | nil => cases h : lastVal k ys <;> simp [lastVal, h]
  | cons n ns ih =>
    show (match lastVal k (ns ++ ys) with
          | some v => some v
          | none => if uniqueId n = k then some n else none) =
        (match lastVal k ys with
         | some v => some v
         | none =>
           match lastVal k ns with
           | some v => some v
           | none => if uniqueId n = k then some n else none)
    rw [ih]
    cases h : lastVal k ys <;> cases h2 : lastVal k ns <;> simp [h, h2]

theorem addNetworks_nodup (nets : List Network) :
    ∀ m : List (String × Entry), (dkeys m).Nodup → (dkeys (addNetworks m nets)).Nodup := by
  induction nets with
  | nil => intro m h; exact h
  | cons n ns ih =>
    intro m h
    exact ih _ (nodup_dkeys_upsert _ _ _ h)

/-- C1: the macOS accumulation upsert is keyed by the `ssid_freq` identity
(`addNetworks`/`uniqueId`); merging the same parse result twice yields a map
whose keys are pairwise distinct (exactly one entry per identity) and whose
value at every identity is the record of the last upsert with that identity. -/
theorem dedup_last_write_wins (nets : List Network) (k : String) :
    dlookup k (addNetworks [] (nets ++ nets)) = (lastVal k nets).map Entry.net
    ∧ (dkeys (addNetworks [] (nets ++ nets))).Nodup := by
  constructor
  · rw [addNetworks_dlookup, lastVal_append]
    cases h : lastVal k nets <;> simp [h, dlookup]
  · exact addNetworks_nodup _ [] (by simp [dkeys])

/-! ### Converters -/

theorem ctf_low (c : Int) (h1 : 1 ≤ c) (h2 : c ≤ 13) :
    channel_to_freq (.int c) = .int (2412 + (c - 1) * 5) := by
  simp only [channel_to_freq, pyInt?]
  rw [if_pos (by omega : 1 ≤ c ∧ c ≤ 14), if_neg (by omega : ¬ c = 14)]

theorem ctf_high (c : Int)
    (h : (36 ≤ c ∧ c ≤ 64) ∨ (100 ≤ c ∧ c ≤ 144) ∨ (149 ≤ c ∧ c ≤ 165)) :
    channel_to_freq (.int c) = .int (5000 + c * 5) := by
  simp only [channel_to_freq, pyInt?]
  rw [if_neg (by omega : ¬ (1 ≤ c ∧ c ≤ 14))]
  rcases h with ⟨h1, h2⟩ | ⟨h1, h2⟩ | ⟨h1, h2⟩
  · rw [if_pos (by omega : 36 ≤ c ∧ c ≤ 64)]
  · rw [if_neg (by omega : ¬ (36 ≤ c ∧ c ≤ 64)), if_pos (by omega : 100 ≤ c ∧ c ≤ 144)]
  · rw [if_neg (by omega : ¬ (36 ≤ c ∧ c ≤ 64)), if_neg (by omega : ¬ (100 ≤ c ∧ c ≤ 144)),
      if_pos (by omega : 149 ≤ c ∧ c ≤ 165)]

theorem ftc_int (f : Int) : freq_to_channel (.int f) =
    (if 2412 ≤ f ∧ f ≤ 2472 then .str (toString ((f - 2407) / 5))
     else if 5180 ≤ f ∧ f ≤ 5825 then .str (toString ((f - 5000) / 5))
     else .str "Unknown") := by
  simp only [freq_to_channel, pyInt?]

/-- C4: the channel→frequency→channel round trip is the identity on every
valid channel range, and channel 14 is the non-invertible special case
(`channel_to_freq 14 = 2484`, which `freq_to_channel` maps to `Unknown`). -/
theorem roundtrip_valid_channels (c : Int)
    (h : (1 ≤ c ∧ c ≤ 13) ∨ (36 ≤ c ∧ c ≤ 64) ∨ (100 ≤ c ∧ c ≤ 144) ∨ (149 ≤ c ∧ c ≤ 165)) :
    (freq_to_channel (channel_to_freq (.int c)) = .str (toString c))
    ∧ channel_to_freq (.int 14) = .int 2484
    ∧ freq_to_channel (.int 2484) = .str "Unknown" := by
  refine ⟨?_, by decide, by decide⟩
  rcases h with ⟨h1, h2⟩ | h | h | h
  · rw [ctf_low c h1 h2, ftc_int]
    rw [if_pos (by omega : 2412 ≤ 2412 + (c - 1) * 5 ∧ 2412 + (c - 1) * 5 ≤ 2472)]
    have e : (2412 + (c - 1) * 5 - 2407) / 5 = c := by omega
    rw [e]
  all_goals {
    rw [ctf_high c (by tauto), ftc_int]
    rw [if_neg (by omega : ¬ (2412 ≤ 5000 + c * 5 ∧ 5000 + c * 5 ≤ 2472))]
    rw [if_pos (by omega : 5180 ≤ 5000 + c * 5 ∧ 5000 + c * 5 ≤ 5825)]
    have e : (5000 + c * 5 - 5000) / 5 = c := by omega
    rw [e] }

theorem roundtrip_valid_channels_witness :
    ((1 ≤ (6 : Int) ∧ (6 : Int) ≤ 13) ∨ (36 ≤ (6 : Int) ∧ (6 : Int) ≤ 64)
      ∨ (100 ≤ (6 : Int) ∧ (6 : Int) ≤ 144) ∨ (149 ≤ (6 : Int) ∧ (6 : Int) ≤ 165))
    ∧ freq_to_channel (channel_to_freq (.int 6)) = .str (toString (6 : Int)) :=
  ⟨by decide, (roundtrip_valid_channels 6 (by decide)).1⟩

/-- C6: both converters compute exactly the mapping formulas the spec
states, on every numeric input. -/
theorem converter_formulas (n : Int) :
    channel_to_freq (.int n) = channelToFrequencySpec n
    ∧ freq_to_channel (.int n) = frequencyToChannelSpec n := by
  constructor
  · simp only [channel_to_freq, pyInt?, channelToFrequencySpec]
    split_ifs <;> first | rfl | (exfalso; omega)
  · simp only [freq_to_channel, pyInt?, frequencyToChannelSpec]

/-- C5: on any input whose `int()` conversion fails (non-numeric string,
`None`), and on any numeric input outside the valid ranges (negative
included), both converters return the `"Unknown"` sentinel; as total Lean
functions they cannot raise. -/
theorem converter_totality (v : PyVal) :
    (pyInt? v = none → channel_to_freq v = .str "Unknown" ∧ freq_to_channel v = .str "Unknown")
    ∧ (∀ n, pyInt? v = some n → ¬ validChannel n → channel_to_freq v = .str "Unknown")
    ∧ (∀ n, pyInt? v = some n → ¬ validFreq n → freq_to_channel v = .str "Unknown") := by
  refine ⟨fun h => ⟨?_, ?_⟩, fun n h hn => ?_, fun n h hn => ?_⟩
  · simp only [channel_to_freq, h]
  · simp only [freq_to_channel, h]
  · unfold validChannel at hn
    simp only [channel_to_freq, h]
    rw [if_neg (by omega : ¬ (1 ≤ n ∧ n ≤ 14)), if_neg (by omega : ¬ (36 ≤ n ∧ n ≤ 64)),
      if_neg (by omega : ¬ (100 ≤ n ∧ n ≤ 144)), if_neg (by omega : ¬ (149 ≤ n ∧ n ≤ 165))]
  · unfold validFreq at hn
    simp only [freq_to_channel, h]
    rw [if_neg (by omega : ¬ (2412 ≤ n ∧ n ≤ 2472)), if_neg (by omega : ¬ (5180 ≤ n ∧ n ≤ 5825))]

theorem converter_totality_witness :
    (pyInt? (PyVal.str "abc") = none
      ∧ channel_to_freq (.str "abc") = .str "Unknown"
      ∧ freq_to_channel (.str "abc") = .str "Unknown")
    ∧ (pyInt? (PyVal.int (-5)) = some (-5) ∧ ¬ validChannel (-5)
      ∧ channel_to_freq (.int (-5)) = .str "Unknown")
    ∧ (pyInt? PyVal.noneV = none ∧ channel_to_freq .noneV = .str "Unknown") :=
  ⟨⟨by decide, ((converter_totality (.str "abc")).1 (by decide)).1,
      ((converter_totality (.str "abc")).1 (by decide)).2⟩,
   ⟨rfl, by decide, (converter_totality (.int (-5))).2.1 (-5) rfl (by decide)⟩,
   ⟨rfl, ((converter_totality .noneV).1 rfl).1⟩⟩

/-! ### Finalizer -/

/-- C2 counterexample: at `rssi = -48, noise = -95` (snr 47) the code's
`int((snr+100)*0.5)` truncation gives 73, while the claimed
`round((snr+100)*0.5)` formula gives 74. -/
theorem signal_round_cex :
    (_finalize_network { rssi := some (-48), noise := some (-95) }).snr = some 47
    ∧ (_finalize_network { rssi := some (-48), noise := some (-95) }).signal = 73
    ∧ pyClamp (pyRoundHalf (47 + 100)) = 74
    ∧ (_finalize_network { rssi := some (-48), noise := some (-95) }).signal
        ≠ pyClamp (pyRoundHalf ((-48 : Int) - (-95) + 100)) :=
  ⟨by decide, by decide, by decide, by decide⟩

/-- C2 amended: when both rssi and noise are known (present and not the
`-100` sentinel), `snr = rssi - noise` and
`signal_percent = clamp(0, 100, int((snr+100)*0.5))` (truncation, not
rounding); when only rssi is known, `clamp(0, 100, 2*(rssi+100))`; when
rssi is unknown the field is still present, with value 0. -/
theorem signal_percent_derivation (p : PartialNet) :
    (∀ r n : Int, p.rssi = some r → r ≠ -100 → p.noise = some n → n ≠ -100 →
      (_finalize_network p).snr = some (r - n)
      ∧ (_finalize_network p).signal = pyClamp (truncHalf (r - n + 100)))
    ∧ (∀ r : Int, p.rssi = some r → r ≠ -100 → (p.noise = none ∨ p.noise = some (-100)) →
      (_finalize_network p).snr = none
      ∧ (_finalize_network p).signal = pyClamp (2 * (r + 100)))
    ∧ ((p.rssi = none ∨ p.rssi = some (-100)) →
      (_finalize_network p).snr = none ∧ (_finalize_network p).signal = 0) := by
  refine ⟨?_, ?_, ?_⟩
  · intro r n hr hrne hn hnne
    simp only [_finalize_network, hr, hn, Option.getD_some]
    rw [if_pos ⟨hrne, hnne⟩, if_pos ⟨hrne, hnne⟩]
    exact ⟨rfl, rfl⟩
  · intro r hr hrne hn
    rcases hn with hn | hn <;>
      simp only [_finalize_network, hr, hn, Option.getD_some, Option.getD_none] <;>
      rw [if_neg (by simp), if_neg (by simp)] <;> exact ⟨rfl, rfl⟩
  · intro hr
    rcases hr with hr | hr <;>
      simp only [_finalize_network, hr, Option.getD_some, Option.getD_none] <;>
      rw [if_neg (by simp), if_neg (by simp)] <;>
      refine ⟨rfl, ?_⟩ <;>
      cases hnn : p.noise <;> simp [pyClamp]

theorem signal_percent_derivation_witness :
    ((_finalize_network { rssi := some (-48), noise := some (-94) }).snr
        = some ((-48 : Int) - (-94))
      ∧ (_finalize_network { rssi := some (-48), noise := some (-94) }).signal
        = pyClamp (truncHalf ((-48 : Int) - (-94) + 100)))
    ∧ ((_finalize_network { rssi := some (-60) }).snr = none
      ∧ (_finalize_network { rssi := some (-60) }).signal = pyClamp (2 * ((-60 : Int) + 100)))
    ∧ ((_finalize_network {}).snr = none ∧ (_finalize_network {}).signal = 0)
    ∧ (_finalize_network { rssi := some (-48), noise := some (-94) }).signal = 73
    ∧ ((-48 : Int) - (-94)) = 46 :=
  ⟨(signal_percent_derivation { rssi := some (-48), noise := some (-94) }).1
      (-48) (-94) rfl (by decide) rfl (by decide),
   (signal_percent_derivation { rssi := some (-60) }).2.1 (-60) rfl (by decide) (Or.inl rfl),
   (signal_percent_derivation {}).2.2 (Or.inl rfl),
   by decide, by decide⟩

/-! ### macOS parser scenario -/

/-- C3: evaluating `_parse_macos_networks` at the two-block scenario: the
ssids and rssi values are as the claim states, but the band of the
channel-6 block is `"2GHz"`, not the `"2.4GHz"` that the claim (and the
repository's own test, which asserts `2.4GHz` appears for this very
scenario) expects. -/
theorem macos_two_block_scenario :
    (_parse_macos_networks macScenario).map Network.ssid = ["MyHomeWiFi", "Office5G"]
    ∧ (_parse_macos_networks macScenario).map Network.rssi = [-48, -60]
    ∧ (_parse_macos_networks macScenario).map Network.band = ["2GHz", "5GHz"]
    ∧ ("2GHz" : String) ≠ "2.4GHz" :=
  ⟨by decide, by decide, by decide, by decide⟩

/-! ### nmcli colon-delimited parsing -/

/-- C7: the sample row with escaped colons parses to
`bssid = "AA:BB:CC:DD:EE:FF"`, is marked active and makes the merge loop
record `HomeNet_2437` as the connected identity; an empty SSID field
becomes `"<hidden>"`, and an active-flag other than `yes` does not mark
the record. -/
theorem nmcli_line_parsing :
    (_get_linux_nmcli_networks (some nmLineSample)).map NmNet.bssid = ["AA:BB:CC:DD:EE:FF"]
    ∧ (_get_linux_nmcli_networks (some nmLineSample)).map NmNet.ssid = ["HomeNet"]
    ∧ (_get_linux_nmcli_networks (some nmLineSample)).map NmNet.active = [true]
    ∧ (linuxMerge [] (_get_linux_nmcli_networks (some nmLineSample)) [] none).toOption.map
        Prod.snd = some (some "HomeNet_2437")
    ∧ (_get_linux_nmcli_networks (some nmHiddenSample)).map NmNet.ssid = ["<hidden>"]
    ∧ (_get_linux_nmcli_networks (some nmHiddenSample)).map NmNet.active = [false] :=
  ⟨by decide, by decide, by decide, by decide, by decide, by decide⟩

/-! ### Failure containment of the nested-section parser -/

theorem startsWithL_iff (p s : List Char) : startsWithL p s = true ↔ p <+: s := by
  induction p generalizing s with
  | nil => simp [startsWithL]
  | cons a ps ih =>
    cases s with
    | nil => simp [startsWithL, List.prefix_nil]
    | cons b t => simp [startsWithL, ih, List.cons_prefix_cons, beq_iff_eq]

theorem containsSub_eq_true_iff (p s : List Char) : containsSub p s = true ↔ p <:+: s := by
  induction s with
  | nil => simp [containsSub, startsWithL_iff, List.infix_nil, List.prefix_nil]
  | cons c cs ih => simp [containsSub, startsWithL_iff, ih, List.infix_cons_iff]

theorem pyRstrip_prefix (l : List Char) : pyRstrip l <+: l := by
  have h := List.dropWhile_suffix (l := l.reverse) isPyWs
  have h2 : (l.reverse.dropWhile isPyWs).reverse <+: l.reverse.reverse :=
    List.reverse_prefix.mpr h
  simpa [pyRstrip] using h2

theorem splitLinesCR_mem_piece (s : List Char) :
    ∀ (acc : List Char) (b : Bool) (l : List Char),
      l ∈ splitLinesCR s acc b → l <:+: (acc.reverse ++ s) := by
  induction s with
  | nil =>
    intro acc b l h
    simp only [splitLinesCR, List.mem_singleton] at h
    subst h
    exact (List.prefix_append _ _).isInfix
  | cons c cs ih =>
    intro acc b l h
    have ext : ∀ l : List Char, l <:+: cs → l <:+: (acc.reverse ++ c :: cs) := by
      intro l hl
      exact hl.trans ((List.suffix_cons c cs).trans (List.suffix_append _ _)).isInfix
    by_cases hn : c = '\n'
    · subst hn
      simp only [splitLinesCR, if_pos rfl] at h
      by_cases hb : b = true
      · rw [if_pos hb] at h
        have := ih [] false l h
        simpa using ext l (by simpa using this)
      · rw [if_neg hb] at h
        rcases List.mem_cons.mp h with h | h
        · subst h; exact (List.prefix_append _ _).isInfix
        · exact ext l (by simpa using ih [] false l h)
    · by_cases hr : c = '\r'
      · subst hr
        simp only [splitLinesCR, if_neg hn, if_pos rfl] at h
        rcases List.mem_cons.mp h with h | h
        · subst h; exact (List.prefix_append _ _).isInfix
        · exact ext l (by simpa using ih [] true l h)
      · simp only [splitLinesCR, if_neg hn, if_neg hr] at h
        have := ih (c :: acc) false l h
        simpa using this

theorem splitLinesPy_mem_piece (s : List Char) (l : List Char)
    (h : l ∈ splitLinesPy s) : l <:+: s := by
  cases s with
  | nil => simp [splitLinesPy] at h
  | cons c cs =>
    have hmem : l ∈ splitLinesCR (c :: cs) [] false := by
      simp only [splitLinesPy] at h
      split at h
      · exact List.dropLast_subset _ h
      · exact h
    simpa using splitLinesCR_mem_piece (c :: cs) [] false l hmem

theorem macGo_no_marker (ls : List (List Char)) :
    ∀ (cur : PartialNet) (acc : List Network),
      (∀ l ∈ ls, containsSub marker (pyRstrip l) = false) →
      macGo ls false cur acc = acc ++ pushNet cur := by
  induction ls with
  | nil => intro cur acc _; rfl
  | cons l rest ih =>
    intro cur acc h
    have h0 : containsSub marker (pyRstrip l) = false := h l (List.mem_cons_self l rest)
    rw [macGo]
    rw [if_neg (by simp [h0]), if_pos (by simp)]
    exact ih cur acc (fun x hx => h x (List.mem_cons_of_mem l hx))

/-- C8: on any raw text that nowhere contains the section marker
`"Other Local Wi-Fi Networks:"`, `_parse_macos_networks` returns the empty
record list (it is a total Lean function, so no error is possible). -/
theorem parse_no_marker_empty (out : String)
    (h : containsSub marker out.data = false) :
    _parse_macos_networks out = [] := by
  unfold _parse_macos_networks
  have hlines : ∀ l ∈ splitLinesPy out.data, containsSub marker (pyRstrip l) = false := by
    intro l hl
    by_contra hc
    have hc' : containsSub marker (pyRstrip l) = true := by
      cases e : containsSub marker (pyRstrip l)
      · exact absurd e hc
      · rfl
    have h1 : marker <:+: pyRstrip l := (containsSub_eq_true_iff _ _).mp hc'
    have h2 : pyRstrip l <+: l := pyRstrip_prefix l
    have h3 : l <:+: out.data := splitLinesPy_mem_piece out.data l hl
    have h4 : marker <:+: out.data := (h1.trans h2.isInfix).trans h3
    rw [(containsSub_eq_true_iff _ _).mpr h4] at h
    simp at h
  rw [macGo_no_marker _ _ _ hlines]
  rfl

theorem parse_no_marker_empty_witness :
    containsSub marker "hello\nworld".data = false
    ∧ _parse_macos_networks "hello\nworld" = [] :=
  ⟨by decide, parse_no_marker_empty "hello\nworld" (by decide)⟩

/-! ### Aggregator: unsupported platform and the reserved `'current'` key -/

theorem macosLoop_all_fail (rem : Nat) :
    ∀ (i : Nat) (all : List (String × Entry)) (conn : Option String),
      macosLoop (fun _ => none) i rem all conn = (all, conn) := by
  induction rem with
  | zero => intro i all conn; rfl
  | succ r ih => intro i all conn; exact ih (i + 1) all conn

/-- C9: the `windows` selector yields the `NotImplementedError` signal for
every timeout, without consuming any pass; any selector outside
`{macos, linux, windows}` immediately yields the `ValueError` signal; and
per-pass transient failures (every pass failing) still produce a normal
result rather than an error. -/
theorem unsupported_platform_failure (timeout : Int)
    (macPasses : Nat → Option String) (linPasses : Nat → List IwNet × List NmNet) :
    get_wifi_networks timeout "windows" macPasses linPasses
        = .error (.notImplemented "Windows WiFi scanning not implemented yet.")
    ∧ (∀ os : String, os ≠ "macos" → os ≠ "linux" → os ≠ "windows" →
        get_wifi_networks timeout os macPasses linPasses
          = .error (.valueError ("Unknown OS: " ++ os)))
    ∧ get_wifi_networks timeout "macos" (fun _ => none) linPasses
        = .ok [("current", Entry.cur none)] := by
  refine ⟨rfl, ?_, ?_⟩
  · intro os h1 h2 h3
    unfold get_wifi_networks
    rw [if_neg h1, if_neg h2, if_neg h3]
  · unfold get_wifi_networks
    rw [if_pos rfl]
    unfold macosRunScan
    rw [macosLoop_all_fail]
    rfl

theorem unsupported_platform_failure_witness :
    ("freebsd" : String) ≠ "macos" ∧ ("freebsd" : String) ≠ "linux"
    ∧ ("freebsd" : String) ≠ "windows"
    ∧ get_wifi_networks 5 "freebsd" (fun _ => none) (fun _ => ([], []))
        = .error (.valueError ("Unknown OS: " ++ "freebsd")) :=
  ⟨by decide, by decide, by decide,
    (unsupported_platform_failure 5 (fun _ => none) (fun _ => ([], []))).2.1
      "freebsd" (by decide) (by decide) (by decide)⟩

theorem mem_insertByRssi (d : List (String × Entry)) (k a : String) (l : List String) :
    a ∈ insertByRssi d k l ↔ a = k ∨ a ∈ l := by
  induction l with
  | nil => simp [insertByRssi]
  | cons k' ks ih =>
    by_cases h : rssiKey d k' < rssiKey d k <;> (simp [insertByRssi, h, ih]; try tauto)

theorem not_mem_sorted_of_not_mem (d : List (String × Entry)) (a : String) :
    ∀ ks : List String, a ∉ ks → a ∉ ks.foldr (insertByRssi d) [] := by
  intro ks
  induction ks with
  | nil => intro _ h; simp at h
  | cons k ks ih =>
    intro hn hmem
    rw [List.foldr_cons, mem_insertByRssi] at hmem
    rcases hmem with h | h
    · exact hn (by simp [h])
    · exact ih (fun hx => hn (List.mem_cons_of_mem _ hx)) h

/-- C10: every successful macOS or Linux scan returns a dict that maps the
key `'current'` to the connected-identity value (an identity string or
`None`, the `Entry.cur` shape — never a network record); the final write
overwrites whatever entry sat under the key `'current'`; and the
presentation layer's key list always excludes `'current'`. -/
theorem current_key_invariant (timeout : Int)
    (macPasses : Nat → Option String) (linPasses : Nat → List IwNet × List NmNet) :
    (∀ d, get_wifi_networks timeout "macos" macPasses linPasses = .ok d →
      ∃ c, dlookup "current" d = some (Entry.cur c))
    ∧ (∀ d, get_wifi_networks timeout "linux" macPasses linPasses = .ok d →
      ∃ c, dlookup "current" d = some (Entry.cur c))
    ∧ (∀ (m : List (String × Entry)) (c : Option String),
        dlookup "current" (upsert m "current" (Entry.cur c)) = some (Entry.cur c))
    ∧ (∀ d : List (String × Entry), "current" ∉ tableSsidList d) := by
  have hlk : ∀ (m : List (String × Entry)) (c : Option String),
      dlookup "current" (upsert m "current" (Entry.cur c)) = some (Entry.cur c) := by
    intro m c
    rw [dlookup_upsert]
    exact if_pos rfl
  refine ⟨?_, ?_, hlk, ?_⟩
  · intro d hd
    unfold get_wifi_networks at hd
    rw [if_pos rfl] at hd
    have hd' : macosRunScan (max 1 (timeout / 2)).toNat macPasses = d := by
      injection hd
    subst hd'
    unfold macosRunScan
    exact ⟨_, hlk _ _⟩
  · intro d hd
    unfold get_wifi_networks at hd
    rw [if_neg (by decide), if_pos rfl] at hd
    unfold linuxRunScan at hd
    cases hloop : linuxLoop linPasses 0 (max 1 (timeout / 2)).toNat [] none with
    | error e => rw [hloop] at hd; cases hd
    | ok st =>
      rw [hloop] at hd
      have hd' : upsert st.1 "current" (Entry.cur st.2) = d := by injection hd
      subst hd'
      exact ⟨_, hlk _ _⟩
  · intro d
    unfold tableSsidList
    apply not_mem_sorted_of_not_mem
    intro hmem
    have := List.of_mem_filter hmem
    simp at this

theorem current_key_invariant_witness :
    (get_wifi_networks 2 "macos" (fun _ => none) (fun _ => ([], []))
        = .ok [("current", Entry.cur none)])
    ∧ (get_wifi_networks 2 "linux" (fun _ => none) (fun _ => ([], []))
        = .ok [("current", Entry.cur none)])
    ∧ (∃ c, dlookup "current" [("current", Entry.cur none)] = some (Entry.cur c))
    ∧ (∃ c, dlookup "current" ([("current", Entry.cur none)] : List (String × Entry))
        = some (Entry.cur c)) :=
  ⟨by rfl, by rfl,
    (current_key_invariant 2 (fun _ => none) (fun _ => ([], []))).1
      [("current", Entry.cur none)] (by rfl),
    (current_key_invariant 2 (fun _ => none) (fun _ => ([], []))).2.1
      [("current", Entry.cur none)] (by rfl)⟩

end TinyWifi
